import Mathlib

/-!
Verification development for the `moegy-graduation` repository.

The repository converts a semi-structured spreadsheet of graduation
records into a CSV file (`src/data/convert_to_csv.py`) and then
validates that CSV (`src/data/validate_csv.py`, `src/data/check_format.py`).

Spreadsheet cells are modelled as `Option String`: `none` models a
missing value (`pd.isna`), `some s` a cell whose `str()` value is `s`.
String primitives (`lower`, `upper`, `strip`, `title`, `split`,
substring containment, `isdigit`) are modelled over ASCII characters,
which covers every literal the scripts compare against.
-/

/-- ASCII whitespace, as stripped by Python `str.strip()` and matched by
the regex class `\s` (space, tab, newline, carriage return, vertical
tab, form feed). -/
def isSpaceChar (c : Char) : Bool :=
  c = ' ' || c = '\t' || c = '\n' || c = '\r' || c = '\x0b' || c = '\x0c'

/-- ASCII lowercase test, by code point. -/
def isLowerChar (c : Char) : Bool :=
  97 ≤ c.toNat && c.toNat ≤ 122

/-- ASCII uppercase test, by code point. -/
def isUpperChar (c : Char) : Bool :=
  65 ≤ c.toNat && c.toNat ≤ 90

/-- ASCII letter test, modelling the regex class `[A-Za-z]`. -/
def isAlphaChar (c : Char) : Bool :=
  isUpperChar c || isLowerChar c

/-- ASCII digit test, modelling Python `str.isdigit` on ASCII text. -/
def isDigitChar (c : Char) : Bool :=
  48 ≤ c.toNat && c.toNat ≤ 57

/-- Uppercase one character (ASCII model of Python `str.upper`). -/
def upChar (c : Char) : Char :=
  if isLowerChar c then Char.ofNat (c.toNat - 32) else c

/-- Lowercase one character (ASCII model of Python `str.lower`). -/
def downChar (c : Char) : Char :=
  if isUpperChar c then Char.ofNat (c.toNat + 32) else c

/-- Python `str.upper()`. -/
def upperStr (s : String) : String :=
  String.mk (s.data.map upChar)

/-- Python `str.lower()`. -/
def lowerStr (s : String) : String :=
  String.mk (s.data.map downChar)

/-- Strip leading and trailing whitespace from a character list. -/
def trimChars (l : List Char) : List Char :=
  ((l.dropWhile isSpaceChar).reverse.dropWhile isSpaceChar).reverse

/-- Python `str.strip()`. -/
def stripStr (s : String) : String :=
  String.mk (trimChars s.data)

/-- Python `str.title()` on a character list: an alphabetic character is
uppercased when the previous character was not alphabetic, lowercased
otherwise; the flag records whether the previous character was
alphabetic. -/
def titleAux : Bool → List Char → List Char
  | _, [] => []
  | prevAlpha, c :: cs =>
    if isAlphaChar c then
      (if prevAlpha then downChar c else upChar c) :: titleAux true cs
    else
      c :: titleAux false cs

/-- Python `str.title()`. -/
def titleStr (s : String) : String :=
  String.mk (titleAux false s.data)

/-- Predicate `leadMatch l n`: `n` is an initial segment of `l`. -/
def leadMatch : List Char → List Char → Bool
  | _, [] => true
  | [], _ :: _ => false
  | h :: hs, n :: ns => h = n && leadMatch hs ns

/-- Substring containment on character lists, modelling the Python
containment test `needle in hay`. -/
def containsSub : List Char → List Char → Bool
  | hay, needle =>
    leadMatch hay needle ||
      match hay with
      | [] => false
      | _ :: t => containsSub t needle

/-- Python `needle in hay` on strings. -/
def containsStr (hay needle : String) : Bool :=
  containsSub hay.data needle.data

/-- Predicate `endsWithStr s t`: `t` is a suffix of `s`. -/
def endsWithStr (s t : String) : Bool :=
  leadMatch s.data.reverse t.data.reverse

/-- Python `str.isdigit()` (ASCII): nonempty and all digits. -/
def isDigitStr (s : String) : Bool :=
  !s.data.isEmpty && s.data.all isDigitChar

/-- Python `str.split()` (no argument): split on whitespace runs,
dropping empty pieces.  The accumulator holds the current word
reversed. -/
def splitWsAux : List Char → List Char → List (List Char)
  | acc, [] => if acc.isEmpty then [] else [acc.reverse]
  | acc, c :: cs =>
    if isSpaceChar c then
      if acc.isEmpty then splitWsAux [] cs else acc.reverse :: splitWsAux [] cs
    else
      splitWsAux (c :: acc) cs

/-- Python `str.split()` on a character list. -/
def splitWs (l : List Char) : List (List Char) :=
  splitWsAux [] l

/-- Join character lists with a single separator character, modelling
Python `sep.join(parts)` for a one-character separator. -/
def joinSep (c : Char) : List (List Char) → List Char
  | [] => []
  | [p] => p
  | p :: ps => p ++ c :: joinSep c ps

/-- Python `' '.join(s.split())`: collapse whitespace runs to single
spaces and drop leading/trailing whitespace
(`convert_to_csv.py`, line 62). -/
def normalizeSpaces (s : String) : String :=
  String.mk (joinSep ' ' (splitWs s.data))

/-- A spreadsheet cell: `none` is a missing value (`pd.isna`). -/
abbrev Cell := Option String

/-- A spreadsheet row: the ordered cells handed to the row loop. -/
abbrev Row := List Cell

/-- The string value of a cell, used only on cells known present. -/
def cellStr (c : Cell) : String :=
  c.getD ""

/-- The gazetteer of known locations/centers
(`convert_to_csv.py`, lines 17-22). -/
def locations : List String :=
  ["belladrum", "georgetown", "moruca", "new amsterdam", "rose hall",
   "albouystown", "skeldon", "georgetown center", "rose hall center",
   "albouystown center", "skeldon center", "lethem", "linden",
   "mahaica", "mahaicony", "essequibo", "berbice", "demerara"]

/-- Model of `is_location_header` (`convert_to_csv.py`, lines 27-32): a non-null
cell whose lowercased, stripped text contains any gazetteer entry. -/
def is_location_header (text : Cell) : Bool :=
  match text with
  | none => false
  | some t =>
    let textLower := stripStr (lowerStr t)
    locations.any (fun loc => containsStr textLower loc)

/-- Programme-header keywords (`convert_to_csv.py`, lines 40-41). -/
def progKeywords : List String :=
  ["ASSOCIATE DEGREE", "CERTIFICATE", "DIPLOMA", "PROGRAMME",
   "DISTANCE EDUCATION", "GRADUATE TEACHER EDUCATION"]

/-- Model of `is_programme_header` (`convert_to_csv.py`, lines 34-42): a non-null
cell whose uppercased, stripped text contains any keyword. -/
def is_programme_header (text : Cell) : Bool :=
  match text with
  | none => false
  | some t =>
    let textStr := stripStr (upperStr t)
    progKeywords.any (fun k => containsStr textStr k)

/-- Model of `extract_distance_type` (`convert_to_csv.py`, lines 44-55); the call
site always passes a present string. -/
def extract_distance_type (programme_text : String) : Option String :=
  let textUpper := upperStr programme_text
  if containsStr textUpper "PRIMARY" then some "Primary"
  else if containsStr textUpper "SECONDARY" then some "Secondary"
  else if containsStr textUpper "PRE-VOCATIONAL" ||
      containsStr textUpper "PRE VOCATIONAL" ||
      containsStr textUpper "PREVOCATIONAL" then some "Pre-Vocational"
  else none

/-- Model of `clean_programme_name` (`convert_to_csv.py`, lines 57-92). -/
def clean_programme_name (programme_text : Cell) : String :=
  match programme_text with
  | none => ""
  | some t =>
    let clean := normalizeSpaces t
    let cu := upperStr clean
    if containsStr cu "TECHNICAL" && containsStr cu "TEACHER" then
      "Associate Degree in Technical Teachers Education"
    else if containsStr cu "GRADUATE TEACHER EDUCATION" then
      "Associate Degree in Graduate Teacher Education"
    else if containsStr cu "SPECIAL EDUCATION" && containsStr cu "EARLY CHILDHOOD" then
      match extract_distance_type clean with
      | some dt => "Associate Degree in Special Education - Early Childhood (" ++ dt ++ ")"
      | none => "Associate Degree in Special Education - Early Childhood"
    else if containsStr cu "DISTANCE EDUCATION" then
      let types : List String :=
        (if containsStr cu "PRIMARY" then ["Primary"] else []) ++
        (if containsStr cu "SECONDARY" then ["Secondary"] else []) ++
        (if containsStr cu "PRE-VOCATIONAL" || containsStr cu "PRE VOCATIONAL" then
          ["Pre-Vocational"] else []) ++
        (if containsStr cu "ACADEMIC" then ["Academic"] else [])
      let typeStr := String.mk (joinSep ' ' (types.map String.data))
      stripStr ("Associate Degree in Special Education - " ++ typeStr)
    else
      stripStr clean

/-- A student record as built by the converter
(`convert_to_csv.py`, lines 164-170). -/
structure Student where
  name : String
  seatNo : String
  university : String
  programme : String
  classification : String
deriving Repr, DecidableEq

/-- Running state of the converter: emitted records plus the two context
variables (`convert_to_csv.py`, lines 12-14). -/
structure ScanState where
  students : List Student
  current_programme : String
  current_university : String
deriving Repr, DecidableEq

/-- Initial state: no students, both contexts empty. -/
def initState : ScanState :=
  { students := [], current_programme := "", current_university := "" }

/-- Python truthiness of an optional string: present and nonempty. -/
def truthy : Option String → Bool
  | none => false
  | some s => !s.isEmpty

/-- Result of the per-row cell scan (`convert_to_csv.py`, lines 117-147):
the first name-like token found (stored as the last name), the second
(stored as the first name), and the last classification token seen. -/
structure ScanResult where
  lastName : Option String
  firstName : Option String
  classification : Option String
deriving Repr, DecidableEq

/-- Cell tokens skipped as known non-name values
(`convert_to_csv.py`, line 133). -/
def skipTokens : List String :=
  ["R", "G", "M", "F", "NAN", "NO."]

/-- Classification tokens (`convert_to_csv.py`, line 137). -/
def classTokens : List String :=
  ["CREDIT", "DISTINCTION", "PASS", "MERIT"]

/-- Model of the name regex at `convert_to_csv.py`, line 142: nonempty,
only letters, whitespace, hyphens and apostrophes (code point 39). -/
def nameLike (s : String) : Bool :=
  !s.data.isEmpty &&
    s.data.all (fun c => isAlphaChar c || isSpaceChar c || c = '-' || c = Char.ofNat 39)

/-- One step of the per-cell scan (`convert_to_csv.py`, lines 122-147). -/
def scanStep (acc : ScanResult) (cell : Cell) : ScanResult :=
  match cell with
  | none => acc
  | some c =>
    let s := stripStr c
    if isDigitStr s || s.length < 2 then acc
    else if skipTokens.contains (upperStr s) then acc
    else if classTokens.contains (upperStr s) then
      { acc with classification := some (titleStr s) }
    else if nameLike s && !is_location_header (some s) && !is_programme_header (some s) then
      if acc.lastName.isNone then { acc with lastName := some s }
      else if acc.firstName.isNone then { acc with firstName := some s }
      else acc
    else acc

/-- The whole per-row cell scan (`convert_to_csv.py`, lines 117-147). -/
def scanRow (row : Row) : ScanResult :=
  row.foldl scanStep { lastName := none, firstName := none, classification := none }

/-- The first cell of a row (`row[0]`). -/
def firstCol (row : Row) : Cell :=
  row.headD none

/-- The student record built for a qualifying row
(`convert_to_csv.py`, lines 151, 164-170). -/
def mkStudent (r : ScanResult) (st : ScanState) : Student :=
  { name := r.firstName.getD "" ++ " " ++ r.lastName.getD "",
    seatNo := "",
    university := st.current_university,
    programme := st.current_programme,
    classification := r.classification.getD "" }

/-- One iteration of the row loop (`convert_to_csv.py`, lines 96-172):
programme header, else location header, else scan for a student. -/
def processRow (st : ScanState) (row : Row) : ScanState :=
  let fc := firstCol row
  if is_programme_header fc then
    { st with current_programme := clean_programme_name fc }
  else if is_location_header fc then
    let u := titleStr (stripStr (cellStr fc))
    { st with current_university :=
        if containsStr (lowerStr u) "center" then u else u ++ " Center" }
  else
    let r := scanRow row
    if truthy r.lastName && truthy r.firstName then
      if upperStr (r.firstName.getD "") = "FIRST NAME" ||
          upperStr (r.lastName.getD "") = "LAST NAME" then st
      else if st.current_university = "" then st
      else { st with students := st.students ++ [mkStudent r st] }
    else st

/-- The full row loop over an input sheet. -/
def processRows (st : ScanState) (rows : List Row) : ScanState :=
  rows.foldl processRow st

/-- A row emits a record exactly when processing it lengthens the
student list. -/
def emitsRecord (st : ScanState) (row : Row) : Prop :=
  st.students.length < (processRow st row).students.length

instance (st : ScanState) (row : Row) : Decidable (emitsRecord st row) :=
  Nat.decLt _ _

/-!
## Validation script (`src/data/validate_csv.py`)

The script is modelled after the CSV has been loaded: `LoadedCsv` holds
the column names read from the header and the rows, with each field an
`Option String` (`none` models a pandas `NaN`, which is what
`pd.read_csv` produces for an empty field).  The script is sequential:
the required-column check (lines 36-44) exits fatally first; after it
no statement terminates the run — in particular the names-with-space
percentage at line 60 divides a NumPy integer scalar by the row count,
which on a zero-row file evaluates to nan under ufunc semantics (with a
RuntimeWarning) rather than raising — so the run always reaches the
final summary (lines 106-127), with the issue list as its outcome.
-/

/-- One loaded CSV row, fields as read by `pd.read_csv`. -/
structure LoadedRow where
  name : Option String
  seatNo : Option String
  university : Option String
  programme : Option String
  classification : Option String
deriving Repr, DecidableEq

/-- A loaded CSV: header column names plus data rows. -/
structure LoadedCsv where
  columns : List String
  rows : List LoadedRow
deriving Repr, DecidableEq

/-- Model of `required_cols` (`validate_csv.py`, line 36). -/
def required_cols : List String :=
  ["Name", "Seat No.", "University", "Programme", "Classification"]

/-- Outcome of a run of the validation script: fatal exit at the
column check, or completion with the accumulated issue list. -/
inductive VResult where
  | missingColumns : List String → VResult
  | report : List String → VResult
deriving Repr, DecidableEq

/-- Count of missing (`NaN`) entries, modelling `isna().sum()`. -/
def countNone (l : List (Option String)) : Nat :=
  (l.filter fun o => o.isNone).length

/-- Count of entries equal to an earlier entry, modelling
`duplicated().sum()`. -/
def dupCountAux : List (Option String) → List (Option String) → Nat
  | _, [] => 0
  | seen, x :: xs => (if x ∈ seen then 1 else 0) + dupCountAux (x :: seen) xs

/-- Model of the duplicated-name count (`validate_csv.py`, line 55). -/
def dupCount (l : List (Option String)) : Nat :=
  dupCountAux [] l

/-- Model of the contains-space test with missing values counted as
false (`validate_csv.py`, line 59). -/
def hasSpace : Option String → Bool
  | none => false
  | some s => s.data.contains ' '

/-- The issue list built at `validate_csv.py`, lines 106-116.  The
names-with-space threshold is `names_with_space < len(df) * 0.9`,
rendered here over naturals as `10 * names_with_space < 9 * len`. -/
def issuesOf (csv : LoadedCsv) : List String :=
  let names := csv.rows.map (fun r => r.name)
  let emptyNames := countNone names
  let dups := dupCount names
  let namesWithSpace := (names.filter hasSpace).length
  let emptyUni := countNone (csv.rows.map (fun r => r.university))
  let emptyProg := countNone (csv.rows.map (fun r => r.programme))
  (if 0 < emptyNames then ["Empty names detected"] else []) ++
  (if 0 < dups then ["Duplicate names detected"] else []) ++
  (if 10 * namesWithSpace < 9 * csv.rows.length then
    ["Many names missing space (first/last separation)"] else []) ++
  (if 0 < emptyUni then ["Empty university fields"] else []) ++
  (if 0 < emptyProg then ["Empty programme fields"] else [])

/-- Control flow of the validation script after loading
(`validate_csv.py`, lines 36-127). -/
def validate (csv : LoadedCsv) : VResult :=
  if !required_cols.all (fun c => csv.columns.contains c) then
    VResult.missingColumns (required_cols.filter (fun c => !csv.columns.contains c))
  else
    VResult.report (issuesOf csv)

/-!
## CSV writing and re-reading

Modelled from the spec: the CSV layer itself (pandas `to_csv` with
default minimal quoting, and `csv.DictReader` as used by
`src/data/check_format.py`) is library code not part of this
repository.  Following the description in the spec of the artifact — a CSV
file with columns Name, Seat No., University, Programme,
Classification — writing joins fields with `','` and rows with `'\n'`
plus a trailing newline, and reading splits them back, skipping the
header line and blank lines as `csv.DictReader` does.  The model is
restricted to fields free of the delimiter, the quote character and
line breaks, on which minimal quoting writes every field verbatim; the
byte-order mark is an encoding-level detail outside the model. -/

/-- Split a character list at every occurrence of a separator. -/
def splitSep (c : Char) : List Char → List (List Char)
  | [] => [[]]
  | x :: xs =>
    if x = c then [] :: splitSep c xs
    else
      match splitSep c xs with
      | [] => [[x]]
      | h :: t => (x :: h) :: t

/-- A field is CSV-safe when it contains no delimiter, quote character
or line break, so that minimal quoting writes it verbatim. -/
def csvSafeField (s : String) : Bool :=
  s.data.all (fun c => !(c = ',' || c = '"' || c = '\n' || c = '\r'))

/-- The five fields of a student record, in column order. -/
def studentFields (s : Student) : List String :=
  [s.name, s.seatNo, s.university, s.programme, s.classification]

/-- A valid student record for the round-trip property: every field is
CSV-safe. -/
def validStudent (s : Student) : Prop :=
  (studentFields s).all csvSafeField = true

instance (s : Student) : Decidable (validStudent s) :=
  instDecidableEqBool _ _

/-- The CSV header fields (`convert_to_csv.py`, lines 164-170). -/
def headerFields : List String :=
  ["Name", "Seat No.", "University", "Programme", "Classification"]

/-- Encode one CSV line from its fields. -/
def encodeRowFields (fields : List String) : List Char :=
  joinSep ',' (fields.map String.data)

/-- The lines of the written CSV: header first, then one line per
student. -/
def csvLines (students : List Student) : List (List Char) :=
  encodeRowFields headerFields :: students.map (fun s => encodeRowFields (studentFields s))

/-- Write the student list to CSV text, with a trailing newline. -/
def writeCsv (students : List Student) : String :=
  String.mk (joinSep '\n' (csvLines students) ++ ['\n'])

/-- Parse one CSV line into its fields. -/
def parseLineFields (l : List Char) : List String :=
  (splitSep ',' l).map String.mk

/-- Read the data rows back: split into lines, drop the header line,
skip blank lines (as `csv.DictReader` skips empty rows), split each
line into fields. -/
def readRows (s : String) : List (List String) :=
  (((splitSep '\n' s.data).drop 1).filter (fun l => !l.isEmpty)).map parseLineFields

/-- Rebuild a student record from a parsed row; the written header is
exactly `headerFields`, so the by-name access of `csv.DictReader` is
positional here. -/
def rowToStudent (fields : List String) : Student :=
  { name := fields.getD 0 "",
    seatNo := fields.getD 1 "",
    university := fields.getD 2 "",
    programme := fields.getD 3 "",
    classification := fields.getD 4 "" }

/-- Re-read the whole CSV text as student records. -/
def readStudents (s : String) : List Student :=
  (readRows s).map rowToStudent

/-- The invariant maintained by the classification slot of the scan: unset,
or one of the four canonical classification labels. -/
def clsOK : Option String → Prop
  | none => True
  | some c => c = "Credit" ∨ c = "Distinction" ∨ c = "Pass" ∨ c = "Merit"

/-- The record-shape invariant of claim C9: empty seat number and a
classification among the four labels or empty. -/
def goodStudent (s : Student) : Prop :=
  s.seatNo = "" ∧ (s.classification = "Credit" ∨ s.classification = "Distinction" ∨
    s.classification = "Pass" ∨ s.classification = "Merit" ∨ s.classification = "")

/-- A one-row loaded CSV with all five required columns, used by the C8
witness; its single row has a missing classification. -/
def sampleLoadedCsv : LoadedCsv where
  columns := required_cols
  rows := [{ name := some "John Smith", seatNo := some "",
             university := some "Georgetown Center",
             programme := some "X", classification := none }]

/-- A header-only loaded CSV (all five required columns, zero data
rows), used by the C8 witness. -/
def emptyLoadedCsv : LoadedCsv where
  columns := required_cols
  rows := []

/-!
## Helper lemmas
-/

theorem data_append (a b : String) : (a ++ b).data = a.data ++ b.data := rfl

theorem mk_data (s : String) : String.mk s.data = s := rfl

theorem leadMatch_self_append (a b : List Char) : leadMatch (a ++ b) a = true := by
  induction a with
  | nil => cases b <;> rfl
  | cons c cs ih => simp [leadMatch, ih]

theorem containsSub_append_right (x y n : List Char) (h : containsSub y n = true) :
    containsSub (x ++ y) n = true := by
  induction x with
  | nil => simpa using h
  | cons c cs ih =>
    rw [List.cons_append, containsSub]
    simp only [Bool.or_eq_true]
    exact Or.inr ih

theorem lowerStr_append (a b : String) :
    lowerStr (a ++ b) = lowerStr a ++ lowerStr b := by
  simp only [lowerStr, data_append, List.map_append]
  rfl

theorem endsWithStr_append (s t : String) : endsWithStr (s ++ t) t = true := by
  simp only [endsWithStr, data_append, List.reverse_append]
  exact leadMatch_self_append _ _

theorem splitSep_no_sep (c : Char) (p : List Char) (h : c ∉ p) :
    splitSep c p = [p] := by
  induction p with
  | nil => rfl
  | cons x xs ih =>
    have hx : ¬(x = c) := fun he => h (he ▸ List.mem_cons_self x xs)
    have hxs : c ∉ xs := fun hm => h (List.mem_cons_of_mem x hm)
    rw [splitSep, if_neg hx, ih hxs]

theorem splitSep_append_sep (c : Char) (p rest : List Char) (h : c ∉ p) :
    splitSep c (p ++ c :: rest) = p :: splitSep c rest := by
  induction p with
  | nil => simp [splitSep]
  | cons x xs ih =>
    have hx : ¬(x = c) := fun he => h (he ▸ List.mem_cons_self x xs)
    have hxs : c ∉ xs := fun hm => h (List.mem_cons_of_mem x hm)
    rw [List.cons_append, splitSep, if_neg hx, ih hxs]

theorem splitSep_joinSep_trail (c : Char) (parts : List (List Char))
    (hne : parts ≠ []) (h : ∀ p ∈ parts, c ∉ p) :
    splitSep c (joinSep c parts ++ [c]) = parts ++ [[]] := by
  induction parts with
  | nil => exact absurd rfl hne
  | cons p ps ih =>
    cases ps with
    | nil =>
      have hp : c ∉ p := h p (List.mem_cons_self p [])
      have : joinSep c [p] ++ [c] = p ++ c :: [] := by simp [joinSep]
      rw [this, splitSep_append_sep c p [] hp]
      rfl
    | cons q ps' =>
      have hp : c ∉ p := h p (List.mem_cons_self p _)
      have hrest : ∀ r ∈ q :: ps', c ∉ r := fun r hr => h r (List.mem_cons_of_mem p hr)
      have hjoin : joinSep c (p :: q :: ps') ++ [c] = p ++ c :: (joinSep c (q :: ps') ++ [c]) := by
        simp [joinSep]
      rw [hjoin, splitSep_append_sep c p _ hp, ih (by simp) hrest]
      rfl

theorem splitSep_joinSep (c : Char) (parts : List (List Char))
    (hne : parts ≠ []) (h : ∀ p ∈ parts, c ∉ p) :
    splitSep c (joinSep c parts) = parts := by
  induction parts with
  | nil => exact absurd rfl hne
  | cons p ps ih =>
    cases ps with
    | nil =>
      exact splitSep_no_sep c p (h p (List.mem_cons_self p []))
    | cons q ps' =>
      have hp : c ∉ p := h p (List.mem_cons_self p _)
      have hrest : ∀ r ∈ q :: ps', c ∉ r := fun r hr => h r (List.mem_cons_of_mem p hr)
      have hjoin : joinSep c (p :: q :: ps') = p ++ c :: joinSep c (q :: ps') := by
        simp [joinSep]
      rw [hjoin, splitSep_append_sep c p _ hp, ih (by simp) hrest]

theorem not_mem_joinSep (c d : Char) (parts : List (List Char))
    (hdc : d ≠ c) (h : ∀ p ∈ parts, d ∉ p) : d ∉ joinSep c parts := by
  induction parts with
  | nil => simp [joinSep]
  | cons p ps ih =>
    cases ps with
    | nil => simpa [joinSep] using h p (List.mem_cons_self p [])
    | cons q ps' =>
      have hp : d ∉ p := h p (List.mem_cons_self p _)
      have hrest : ∀ r ∈ q :: ps', d ∉ r := fun r hr => h r (List.mem_cons_of_mem p hr)
      have hjoin : joinSep c (p :: q :: ps') = p ++ c :: joinSep c (q :: ps') := by
        simp [joinSep]
      rw [hjoin]
      intro hm
      rcases List.mem_append.mp hm with hm1 | hm2
      · exact hp hm1
      · rcases List.mem_cons.mp hm2 with hm3 | hm4
        · exact hdc hm3
        · exact ih hrest hm4

theorem joinSep_cons_cons_ne_nil (c : Char) (p q : List Char) (ps : List (List Char)) :
    joinSep c (p :: q :: ps) ≠ [] := by
  cases p <;> simp [joinSep]

theorem char_eq_of_toNat_eq {a b : Char} (h : a.toNat = b.toNat) : a = b := by
  apply Char.eq_of_val_eq
  exact UInt32.toNat.inj h

theorem toNat_ofNat_valid {n : Nat} (h : n < 55296) : (Char.ofNat n).toNat = n := by
  have hv : n.isValidChar := Or.inl h
  simp [Char.ofNat, hv]
  rfl

theorem upChar_cases {c u : Char} (hu : isUpperChar u = true) (h : upChar c = u) :
    c = u ∨ (isLowerChar c = true ∧ c.toNat = u.toNat + 32) := by
  unfold upChar at h
  by_cases hl : isLowerChar c = true
  · right
    refine ⟨hl, ?_⟩
    rw [if_pos hl] at h
    have hrange : 97 ≤ c.toNat ∧ c.toNat ≤ 122 := by
      simpa [isLowerChar] using hl
    have hval : c.toNat - 32 < 55296 := by omega
    have := congrArg Char.toNat h
    rw [toNat_ofNat_valid hval] at this
    omega
  · left
    rw [if_neg hl] at h
    exact h

theorem isAlpha_of_upChar {c u : Char} (hu : isUpperChar u = true) (h : upChar c = u) :
    isAlphaChar c = true := by
  rcases upChar_cases hu h with hc | ⟨hl, _⟩
  · subst hc
    simp [isAlphaChar, hu]
  · simp [isAlphaChar, hl]

theorem ofNat_toNat_small {c : Char} (h : c.toNat < 55296) : Char.ofNat c.toNat = c :=
  char_eq_of_toNat_eq (toNat_ofNat_valid h)

theorem downChar_of_upChar {c u : Char} (hu : isUpperChar u = true) (h : upChar c = u) :
    downChar c = downChar u := by
  rcases upChar_cases hu h with hc | ⟨hl, hn⟩
  · rw [hc]
  · have hrange : 97 ≤ c.toNat ∧ c.toNat ≤ 122 := by simpa [isLowerChar] using hl
    have hcu : isUpperChar c = false := by
      simp only [isUpperChar, Bool.and_eq_false_iff]
      right
      simp only [decide_eq_false_iff_not]
      omega
    have h1 : downChar c = c := by
      unfold downChar
      rw [if_neg (by simp [hcu])]
    have h2 : downChar u = Char.ofNat (u.toNat + 32) := by
      unfold downChar
      rw [if_pos hu]
    rw [h1, h2, ← hn]
    exact (ofNat_toNat_small (by omega)).symm

theorem titleAux_true_of_map_upChar {l u : List Char}
    (hu : u.all isUpperChar = true) (h : l.map upChar = u) :
    titleAux true l = u.map downChar := by
  induction l generalizing u with
  | nil =>
    subst h
    rfl
  | cons c cs ih =>
    subst h
    simp only [List.map_cons, List.all_cons, Bool.and_eq_true] at hu
    have ha : isAlphaChar c = true := isAlpha_of_upChar hu.1 rfl
    simp only [titleAux, if_pos ha, List.map_cons]
    exact congrArg₂ List.cons (downChar_of_upChar hu.1 rfl) (ih hu.2 rfl)

theorem titleAux_false_of_map_upChar {l : List Char} {c0 : Char} {u : List Char}
    (h0 : isUpperChar c0 = true) (hu : u.all isUpperChar = true)
    (h : l.map upChar = c0 :: u) :
    titleAux false l = c0 :: u.map downChar := by
  cases l with
  | nil => simp at h
  | cons c cs =>
    simp only [List.map_cons, List.cons.injEq] at h
    have ha : isAlphaChar c = true := isAlpha_of_upChar h0 h.1
    simp only [titleAux, if_pos ha]
    exact congrArg₂ List.cons h.1 (titleAux_true_of_map_upChar hu h.2)

theorem titleStr_of_upperStr {s : String} {c0 : Char} {u : List Char}
    (h0 : isUpperChar c0 = true) (hu : u.all isUpperChar = true)
    (h : upperStr s = String.mk (c0 :: u)) :
    titleStr s = String.mk (c0 :: u.map downChar) := by
  have hdata : s.data.map upChar = c0 :: u := congrArg String.data h
  unfold titleStr
  rw [titleAux_false_of_map_upChar h0 hu hdata]

theorem titleStr_classToken {s : String} (h : classTokens.contains (upperStr s) = true) :
    titleStr s = "Credit" ∨ titleStr s = "Distinction" ∨
      titleStr s = "Pass" ∨ titleStr s = "Merit" := by
  have hm : upperStr s = "CREDIT" ∨ upperStr s = "DISTINCTION" ∨
      upperStr s = "PASS" ∨ upperStr s = "MERIT" := by
    simpa [classTokens] using h
  rcases hm with h1 | h1 | h1 | h1
  · refine Or.inl ?_
    have h2 : upperStr s = String.mk ('C' :: "REDIT".data) := by rw [h1]
    exact (titleStr_of_upperStr (by decide) (by decide) h2).trans (by decide)
  · refine Or.inr (Or.inl ?_)
    have h2 : upperStr s = String.mk ('D' :: "ISTINCTION".data) := by rw [h1]
    exact (titleStr_of_upperStr (by decide) (by decide) h2).trans (by decide)
  · refine Or.inr (Or.inr (Or.inl ?_))
    have h2 : upperStr s = String.mk ('P' :: "ASS".data) := by rw [h1]
    exact (titleStr_of_upperStr (by decide) (by decide) h2).trans (by decide)
  · refine Or.inr (Or.inr (Or.inr ?_))
    have h2 : upperStr s = String.mk ('M' :: "ERIT".data) := by rw [h1]
    exact (titleStr_of_upperStr (by decide) (by decide) h2).trans (by decide)

theorem scanStep_clsOK (acc : ScanResult) (cell : Cell)
    (h : clsOK acc.classification) : clsOK (scanStep acc cell).classification := by
  cases cell with
  | none => exact h
  | some c =>
    unfold scanStep
    dsimp only
    split_ifs with h1 h2 h3 h4 h5 h6
    · exact h
    · exact h
    · exact titleStr_classToken h3
    · exact h
    · exact h
    · exact h
    · exact h

theorem scanRow_clsOK (row : Row) : clsOK (scanRow row).classification := by
  have key : ∀ (cells : Row) (acc : ScanResult), clsOK acc.classification →
      clsOK (cells.foldl scanStep acc).classification := by
    intro cells
    induction cells with
    | nil => intro acc h; exact h
    | cons c cs ih => intro acc h; exact ih _ (scanStep_clsOK acc c h)
  exact key row _ trivial

theorem processRow_programme_of_not_header (st : ScanState) (row : Row)
    (h : is_programme_header (firstCol row) = false) :
    (processRow st row).current_programme = st.current_programme := by
  unfold processRow
  dsimp only
  rw [if_neg (by simp [h])]
  split_ifs <;> rfl

theorem processRows_programme_of_no_header (rows : List Row) (st : ScanState)
    (h : ∀ r ∈ rows, is_programme_header (firstCol r) = false) :
    (processRows st rows).current_programme = st.current_programme := by
  induction rows generalizing st with
  | nil => rfl
  | cons r rs ih =>
    have h1 : is_programme_header (firstCol r) = false := h r (List.mem_cons_self r rs)
    have h2 : ∀ x ∈ rs, is_programme_header (firstCol x) = false :=
      fun x hx => h x (List.mem_cons_of_mem r hx)
    calc (processRows st (r :: rs)).current_programme
        = (processRows (processRow st r) rs).current_programme := rfl
      _ = (processRow st r).current_programme := ih (processRow st r) h2
      _ = st.current_programme := processRow_programme_of_not_header st r h1

theorem processRow_programme_of_header (st : ScanState) (row : Row)
    (h : is_programme_header (firstCol row) = true) :
    (processRow st row).current_programme = clean_programme_name (firstCol row) := by
  unfold processRow
  dsimp only
  rw [if_pos (by simp [h])]

theorem mkStudent_good (r : ScanResult) (st : ScanState)
    (h : clsOK r.classification) : goodStudent (mkStudent r st) := by
  refine ⟨rfl, ?_⟩
  unfold mkStudent
  dsimp only
  cases hc : r.classification with
  | none => simp [Option.getD]
  | some c =>
    rw [hc] at h
    simp only [Option.getD]
    rcases h with h | h | h | h
    · exact Or.inl h
    · exact Or.inr (Or.inl h)
    · exact Or.inr (Or.inr (Or.inl h))
    · exact Or.inr (Or.inr (Or.inr (Or.inl h)))

theorem processRow_students_cases (st : ScanState) (row : Row) :
    (processRow st row).students = st.students ∨
      (processRow st row).students = st.students ++ [mkStudent (scanRow row) st] := by
  unfold processRow
  dsimp only
  split_ifs <;> simp

theorem processRow_good (st : ScanState) (row : Row)
    (h : ∀ s ∈ st.students, goodStudent s) :
    ∀ s ∈ (processRow st row).students, goodStudent s := by
  intro s hs
  rcases processRow_students_cases st row with he | he <;> rw [he] at hs
  · exact h s hs
  · rcases List.mem_append.mp hs with hs1 | hs2
    · exact h s hs1
    · rw [List.mem_singleton.mp hs2]
      exact mkStudent_good _ _ (scanRow_clsOK row)

theorem emitsRecord_iff (st : ScanState) (row : Row)
    (h1 : is_programme_header (firstCol row) = false)
    (h2 : is_location_header (firstCol row) = false) :
    emitsRecord st row ↔
      (truthy (scanRow row).lastName = true ∧ truthy (scanRow row).firstName = true ∧
       upperStr ((scanRow row).firstName.getD "") ≠ "FIRST NAME" ∧
       upperStr ((scanRow row).lastName.getD "") ≠ "LAST NAME" ∧
       st.current_university ≠ "") := by
  unfold emitsRecord processRow
  dsimp only
  rw [if_neg (by simp [h1]), if_neg (by simp [h2])]
  split_ifs with h3 h4 h5
  · rw [Bool.and_eq_true] at h3
    simp only [Bool.or_eq_true, decide_eq_true_eq] at h4
    constructor
    · intro hx
      exact absurd hx (Nat.lt_irrefl _)
    · rintro ⟨-, -, hc, hd, -⟩
      rcases h4 with h4 | h4
      · exact absurd h4 hc
      · exact absurd h4 hd
  · rw [Bool.and_eq_true] at h3
    constructor
    · intro hx
      exact absurd hx (Nat.lt_irrefl _)
    · rintro ⟨-, -, -, -, he⟩
      exact absurd h5 he
  · rw [Bool.and_eq_true] at h3
    simp only [Bool.or_eq_true, decide_eq_true_eq, not_or] at h4
    constructor
    · intro _
      exact ⟨h3.1, h3.2, h4.1, h4.2, h5⟩
    · intro _
      simp
  · rw [Bool.and_eq_true] at h3
    constructor
    · intro hx
      exact absurd hx (Nat.lt_irrefl _)
    · rintro ⟨ha, hb, -, -, -⟩
      exact absurd ⟨ha, hb⟩ h3

theorem not_emits_of_header_names (st : ScanState) (row : Row)
    (h : upperStr ((scanRow row).firstName.getD "") = "FIRST NAME" ∨
         upperStr ((scanRow row).lastName.getD "") = "LAST NAME") :
    ¬ emitsRecord st row := by
  unfold emitsRecord processRow
  dsimp only
  split_ifs with c1 c2 c3 c4 c5 <;> try exact Nat.lt_irrefl _
  exact absurd (by simp only [Bool.or_eq_true, decide_eq_true_eq]; exact h) c5

theorem emits_header_names_ne (st : ScanState) (row : Row) (h : emitsRecord st row) :
    upperStr ((scanRow row).firstName.getD "") ≠ "FIRST NAME" ∧
      upperStr ((scanRow row).lastName.getD "") ≠ "LAST NAME" := by
  constructor
  · intro hc
    exact not_emits_of_header_names st row (Or.inl hc) h
  · intro hc
    exact not_emits_of_header_names st row (Or.inr hc) h

theorem processRow_university_of_location (st : ScanState) (row : Row)
    (h1 : is_programme_header (firstCol row) = false)
    (h2 : is_location_header (firstCol row) = true) :
    (processRow st row).current_university =
      (if containsStr (lowerStr (titleStr (stripStr (cellStr (firstCol row))))) "center"
        then titleStr (stripStr (cellStr (firstCol row)))
        else titleStr (stripStr (cellStr (firstCol row))) ++ " Center") := by
  unfold processRow
  dsimp only
  rw [if_neg (by simp [h1]), if_pos (by simp [h2])]

theorem csvSafe_not_mem {f : String} (h : csvSafeField f = true) :
    ',' ∉ f.data ∧ '"' ∉ f.data ∧ '\n' ∉ f.data ∧ '\r' ∉ f.data := by
  unfold csvSafeField at h
  rw [List.all_eq_true] at h
  refine ⟨fun hm => ?_, fun hm => ?_, fun hm => ?_, fun hm => ?_⟩ <;>
    · have hc := h _ hm
      simp at hc

theorem encodeRow_no_newline {fields : List String}
    (h : ∀ f ∈ fields, csvSafeField f = true) :
    '\n' ∉ encodeRowFields fields := by
  unfold encodeRowFields
  apply not_mem_joinSep
  · decide
  · intro p hp
    rcases List.mem_map.mp hp with ⟨f, hf, rfl⟩
    exact (csvSafe_not_mem (h f hf)).2.2.1

theorem encodeRow_student_ne_nil (s : Student) :
    encodeRowFields (studentFields s) ≠ [] := by
  unfold encodeRowFields studentFields
  simp only [List.map_cons]
  exact joinSep_cons_cons_ne_nil ',' _ _ _

theorem map_self_of_eq {α : Type} (f : α → α) (l : List α)
    (h : ∀ a ∈ l, f a = a) : l.map f = l := by
  induction l with
  | nil => rfl
  | cons a as ih =>
    rw [List.map_cons, h a (List.mem_cons_self a as),
      ih fun x hx => h x (List.mem_cons_of_mem a hx)]

theorem parse_encode_row (fields : List String) (hne : fields ≠ [])
    (h : ∀ f ∈ fields, csvSafeField f = true) :
    parseLineFields (encodeRowFields fields) = fields := by
  unfold parseLineFields encodeRowFields
  rw [splitSep_joinSep ',' (fields.map String.data) (by simpa using hne)
    (fun p hp => by
      rcases List.mem_map.mp hp with ⟨f, hf, rfl⟩
      exact (csvSafe_not_mem (h f hf)).1)]
  rw [List.map_map]
  exact map_self_of_eq _ fields fun a _ => rfl

/-!
## Claims
-/

/-- C1 counterexample: the row `["Last Name", "First Name"]` is not a
programme or location header, the scan finds two name-like tokens, and
the current university is the non-empty string "Georgetown Center", yet
no record is emitted — the code additionally skips rows whose first-name
token upper-cases to "FIRST NAME" (or last-name token to "LAST NAME"),
so the claimed iff fails right-to-left. -/
theorem claim_C1_counterexample :
    is_programme_header (firstCol [some "Last Name", some "First Name"]) = false ∧
    is_location_header (firstCol [some "Last Name", some "First Name"]) = false ∧
    truthy (scanRow [some "Last Name", some "First Name"]).lastName = true ∧
    truthy (scanRow [some "Last Name", some "First Name"]).firstName = true ∧
    ({ students := [], current_programme := "",
       current_university := "Georgetown Center" } : ScanState).current_university ≠ "" ∧
    ¬ emitsRecord
      { students := [], current_programme := "", current_university := "Georgetown Center" }
      [some "Last Name", some "First Name"] := by
  decide

/-- C1 (amended): for every row that is not classified as a programme or
location header, a record is emitted iff the scan finds two name-like
tokens, the first-name token does not upper-case to "FIRST NAME", the
last-name token does not upper-case to "LAST NAME", and the current
university is non-empty. -/
theorem claim_C1_amended (st : ScanState) (row : Row)
    (h1 : is_programme_header (firstCol row) = false)
    (h2 : is_location_header (firstCol row) = false) :
    emitsRecord st row ↔
      (truthy (scanRow row).lastName = true ∧ truthy (scanRow row).firstName = true ∧
       upperStr ((scanRow row).firstName.getD "") ≠ "FIRST NAME" ∧
       upperStr ((scanRow row).lastName.getD "") ≠ "LAST NAME" ∧
       st.current_university ≠ "") :=
  emitsRecord_iff st row h1 h2

/-- Witness for C1 (amended) at a concrete non-header row with both
name tokens and a non-empty university. -/
theorem claim_C1_witness :
    emitsRecord { students := [], current_programme := "", current_university := "G" }
        [some "Ab", some "Cd"] ↔
      (truthy (scanRow [some "Ab", some "Cd"]).lastName = true ∧
       truthy (scanRow [some "Ab", some "Cd"]).firstName = true ∧
       upperStr ((scanRow [some "Ab", some "Cd"]).firstName.getD "") ≠ "FIRST NAME" ∧
       upperStr ((scanRow [some "Ab", some "Cd"]).lastName.getD "") ≠ "LAST NAME" ∧
       ({ students := [], current_programme := "",
          current_university := "G" } : ScanState).current_university ≠ "") :=
  claim_C1_amended _ _ (by decide) (by decide)

/-- C2 counterexample: on the row `["First Name", "Aberdeen"]` the
last-name token is "First Name", which equals the header string
"FIRST NAME" case-insensitively, yet a record is emitted — the code only
compares the first-name token against "FIRST NAME" and the last-name
token against "LAST NAME", not the cross cases. -/
theorem claim_C2_counterexample :
    (scanRow [some "First Name", some "Aberdeen"]).lastName = some "First Name" ∧
    (scanRow [some "First Name", some "Aberdeen"]).firstName = some "Aberdeen" ∧
    upperStr "First Name" = "FIRST NAME" ∧
    emitsRecord
      { students := [], current_programme := "", current_university := "Georgetown Center" }
      [some "First Name", some "Aberdeen"] := by
  decide

/-- C2 (amended): for every data row in which two name-like tokens were
found, a record is emitted only if the first-name token does not equal
"FIRST NAME" and the last-name token does not equal "LAST NAME"
(case-insensitively); a row where the first-name token upper-cases to
"FIRST NAME" or the last-name token to "LAST NAME" emits no record. -/
theorem claim_C2_amended (st : ScanState) (row : Row)
    (hl : truthy (scanRow row).lastName = true)
    (hf : truthy (scanRow row).firstName = true) :
    ((upperStr ((scanRow row).firstName.getD "") = "FIRST NAME" ∨
      upperStr ((scanRow row).lastName.getD "") = "LAST NAME") →
      ¬ emitsRecord st row) ∧
    (emitsRecord st row →
      upperStr ((scanRow row).firstName.getD "") ≠ "FIRST NAME" ∧
      upperStr ((scanRow row).lastName.getD "") ≠ "LAST NAME") :=
  ⟨not_emits_of_header_names st row, emits_header_names_ne st row⟩

/-- Witness for C2 (amended) at a concrete row with both name tokens. -/
theorem claim_C2_witness :
    ((upperStr ((scanRow [some "Ab", some "Cd"]).firstName.getD "") = "FIRST NAME" ∨
      upperStr ((scanRow [some "Ab", some "Cd"]).lastName.getD "") = "LAST NAME") →
      ¬ emitsRecord initState [some "Ab", some "Cd"]) ∧
    (emitsRecord initState [some "Ab", some "Cd"] →
      upperStr ((scanRow [some "Ab", some "Cd"]).firstName.getD "") ≠ "FIRST NAME" ∧
      upperStr ((scanRow [some "Ab", some "Cd"]).lastName.getD "") ≠ "LAST NAME") :=
  claim_C2_amended initState [some "Ab", some "Cd"] (by decide) (by decide)

/-- C3 counterexample: "Georgetown Center Campus" is recognized as a
location header (it contains "georgetown"), already contains "center",
and is stored unchanged — the stored university does not end with
" Center". -/
theorem claim_C3_counterexample :
    is_programme_header (firstCol [some "Georgetown Center Campus"]) = false ∧
    is_location_header (firstCol [some "Georgetown Center Campus"]) = true ∧
    endsWithStr (processRow initState [some "Georgetown Center Campus"]).current_university
      " Center" = false := by
  decide

/-- C3 (amended): after processing a location-header row the stored
current-university context contains "center" case-insensitively, and it
ends with " Center" whenever the title-cased stripped cell did not
already contain "center". -/
theorem claim_C3_amended (st : ScanState) (row : Row)
    (h1 : is_programme_header (firstCol row) = false)
    (h2 : is_location_header (firstCol row) = true) :
    containsStr (lowerStr (processRow st row).current_university) "center" = true ∧
    (containsStr (lowerStr (titleStr (stripStr (cellStr (firstCol row))))) "center" = false →
      endsWithStr (processRow st row).current_university " Center" = true) := by
  rw [processRow_university_of_location st row h1 h2]
  cases hc : containsStr (lowerStr (titleStr (stripStr (cellStr (firstCol row))))) "center" with
  | true =>
    simp only [hc, eq_self_iff_true, if_true]
    exact ⟨trivial, fun hf => nomatch hf⟩
  | false =>
    simp only [hc, Bool.false_eq_true, if_false]
    refine ⟨?_, fun _ => endsWithStr_append _ _⟩
    rw [lowerStr_append]
    unfold containsStr
    rw [data_append]
    exact containsSub_append_right _ _ _ (by decide)

/-- Witness for C3 (amended) at the location-header row ["Georgetown"]. -/
theorem claim_C3_witness :
    containsStr (lowerStr (processRow initState [some "Georgetown"]).current_university)
      "center" = true ∧
    (containsStr (lowerStr (titleStr (stripStr (cellStr (firstCol [some "Georgetown"])))))
        "center" = false →
      endsWithStr (processRow initState [some "Georgetown"]).current_university
        " Center" = true) :=
  claim_C3_amended initState [some "Georgetown"] (by decide) (by decide)

/-- C4: a programme-header row sets the current-programme context to the
normalized value `clean_programme_name`, and across any following rows
none of which is a programme header the context keeps exactly that
value. -/
theorem claim_C4 (st : ScanState) (row : Row) (rows : List Row)
    (h : is_programme_header (firstCol row) = true)
    (hrest : ∀ r ∈ rows, is_programme_header (firstCol r) = false) :
    (processRow st row).current_programme = clean_programme_name (firstCol row) ∧
    (processRows (processRow st row) rows).current_programme =
      clean_programme_name (firstCol row) := by
  have h1 := processRow_programme_of_header st row h
  exact ⟨h1, (processRows_programme_of_no_header rows _ hrest).trans h1⟩

/-- Witness for C4 at a concrete programme header followed by a location
header and a data row. -/
theorem claim_C4_witness :
    (processRow initState [some "CERTIFICATE IN EDUCATION"]).current_programme =
        clean_programme_name (firstCol [some "CERTIFICATE IN EDUCATION"]) ∧
      (processRows (processRow initState [some "CERTIFICATE IN EDUCATION"])
          [[some "Georgetown"], [some "Smith", some "John"]]).current_programme =
        clean_programme_name (firstCol [some "CERTIFICATE IN EDUCATION"]) :=
  claim_C4 initState [some "CERTIFICATE IN EDUCATION"]
    [[some "Georgetown"], [some "Smith", some "John"]] (by decide) (by decide)

/-- C5: processing the row ["Smith", "John", "Credit"] with current
university "Georgetown Center" and current programme "X" emits exactly
one record {Name "John Smith", University "Georgetown Center",
Programme "X", Classification "Credit"}. -/
theorem claim_C5 :
    (processRow
      { students := [], current_programme := "X", current_university := "Georgetown Center" }
      [some "Smith", some "John", some "Credit"]).students =
      [{ name := "John Smith", seatNo := "", university := "Georgetown Center",
         programme := "X", classification := "Credit" }] := by
  decide

/-- C6: writing any sequence of valid student records (every field free
of delimiter, quote and line-break characters, so that minimal quoting
writes it verbatim) to CSV and re-reading the CSV yields the same
records, every field byte-for-byte identical. -/
theorem claim_C6 (students : List Student) (h : ∀ s ∈ students, validStudent s) :
    readStudents (writeCsv students) = students := by
  unfold readStudents readRows writeCsv
  have hsplit : splitSep '\n' ((String.mk (joinSep '\n' (csvLines students) ++ ['\n'])).data)
      = csvLines students ++ [[]] := by
    have hd : (String.mk (joinSep '\n' (csvLines students) ++ ['\n'])).data
        = joinSep '\n' (csvLines students) ++ ['\n'] := rfl
    rw [hd]
    apply splitSep_joinSep_trail
    · simp [csvLines]
    · intro p hp
      unfold csvLines at hp
      rcases List.mem_cons.mp hp with rfl | hp2
      · decide
      · rcases List.mem_map.mp hp2 with ⟨s, hs, rfl⟩
        apply encodeRow_no_newline
        intro f hf
        have hv := h s hs
        unfold validStudent at hv
        rw [List.all_eq_true] at hv
        exact hv f hf
  rw [hsplit]
  have hstep : (csvLines students ++ [[]]).drop 1
      = (students.map fun s => encodeRowFields (studentFields s)) ++ [[]] := by
    simp [csvLines]
  rw [hstep, List.filter_append]
  have hlast : List.filter (fun l => !l.isEmpty) [([] : List Char)] = [] := rfl
  have hbody : List.filter (fun l => !l.isEmpty)
      (students.map fun s => encodeRowFields (studentFields s))
      = students.map fun s => encodeRowFields (studentFields s) := by
    rw [List.filter_eq_self]
    intro a ha
    rcases List.mem_map.mp ha with ⟨s, hs, rfl⟩
    simpa using encodeRow_student_ne_nil s
  rw [hlast, hbody, List.append_nil, List.map_map, List.map_map]
  apply map_self_of_eq
  intro s hs
  have hv := h s hs
  unfold validStudent at hv
  rw [List.all_eq_true] at hv
  show rowToStudent (parseLineFields (encodeRowFields (studentFields s))) = s
  rw [parse_encode_row (studentFields s) (by simp [studentFields]) hv]
  cases s
  rfl

/-- Witness for C6 on a concrete two-record list, one record with empty
programme and classification fields. -/
theorem claim_C6_witness :
    readStudents (writeCsv
      [{ name := "John Smith", seatNo := "", university := "Georgetown Center",
         programme := "X", classification := "Credit" },
       { name := "Jane Doe", seatNo := "", university := "Skeldon Center",
         programme := "", classification := "" }]) =
      [{ name := "John Smith", seatNo := "", university := "Georgetown Center",
         programme := "X", classification := "Credit" },
       { name := "Jane Doe", seatNo := "", university := "Skeldon Center",
         programme := "", classification := "" }] :=
  claim_C6
    [{ name := "John Smith", seatNo := "", university := "Georgetown Center",
       programme := "X", classification := "Credit" },
     { name := "Jane Doe", seatNo := "", university := "Skeldon Center",
       programme := "", classification := "" }] (by decide)

/-- C7: on a loaded CSV whose columns lack "Classification", the
validation script exits fatally at the required-column check, reporting
"Classification" among the missing columns, and none of the later
data-quality checks runs (the outcome is the fatal constructor, not a
report). -/
theorem claim_C7 (csv : LoadedCsv) (h : csv.columns.contains "Classification" = false) :
    validate csv =
      VResult.missingColumns (required_cols.filter fun c => !csv.columns.contains c) ∧
    "Classification" ∈ required_cols.filter fun c => !csv.columns.contains c := by
  constructor
  · unfold validate
    have hall : required_cols.all (fun c => csv.columns.contains c) = false := by
      simp only [required_cols, List.all_cons, List.all_nil, h, Bool.and_false,
        Bool.false_and, Bool.and_true]
    rw [hall]
    rfl
  · rw [List.mem_filter]
    refine ⟨by simp [required_cols], ?_⟩
    rw [h]
    rfl

/-- Witness for C7 on a concrete four-column CSV. -/
theorem claim_C7_witness :
    validate { columns := ["Name", "Seat No.", "University", "Programme"], rows := [] } =
      VResult.missingColumns (required_cols.filter fun c =>
        !(["Name", "Seat No.", "University", "Programme"] : List String).contains c) ∧
    "Classification" ∈ required_cols.filter fun c =>
      !(["Name", "Seat No.", "University", "Programme"] : List String).contains c :=
  claim_C7 { columns := ["Name", "Seat No.", "University", "Programme"], rows := [] }
    (by decide)

/-- C8: on every loaded CSV with all five required columns the
validation script runs to completion with the issue list as its
outcome — data-quality issues are only accumulated into the list and
never cause termination.  After the column check no statement exits:
even on a zero-row file the names-with-space percentage divides a NumPy
integer scalar by zero, which evaluates to nan (with a RuntimeWarning)
rather than raising, and the run reaches the final summary. -/
theorem claim_C8 (csv : LoadedCsv)
    (hcols : required_cols.all (fun c => csv.columns.contains c) = true) :
    validate csv = VResult.report (issuesOf csv) := by
  unfold validate
  rw [hcols]
  rw [if_neg (by simp)]

/-- Witness for C8 on a one-row CSV carrying a quality issue (missing
classification) and on a header-only zero-row CSV. -/
theorem claim_C8_witness :
    validate sampleLoadedCsv = VResult.report (issuesOf sampleLoadedCsv) ∧
    validate emptyLoadedCsv = VResult.report (issuesOf emptyLoadedCsv) :=
  ⟨claim_C8 sampleLoadedCsv (by decide), claim_C8 emptyLoadedCsv (by decide)⟩

/-- C9: every record emitted by the converter, over any input row
sequence from the initial state, has an empty seat-number field and a
classification among "Credit", "Distinction", "Pass", "Merit" or the
empty string. -/
theorem claim_C9 (rows : List Row) :
    ∀ s ∈ (processRows initState rows).students,
      s.seatNo = "" ∧ (s.classification = "Credit" ∨ s.classification = "Distinction" ∨
        s.classification = "Pass" ∨ s.classification = "Merit" ∨ s.classification = "") := by
  have key : ∀ (rs : List Row) (st : ScanState), (∀ s ∈ st.students, goodStudent s) →
      ∀ s ∈ (processRows st rs).students, goodStudent s := by
    intro rs
    induction rs with
    | nil => intro st h; exact h
    | cons r rs' ih => intro st h; exact ih _ (processRow_good st r h)
  intro s hs
  exact key rows initState (by intro x hx; exact absurd hx (List.not_mem_nil x)) s hs

/-- Witness for C9 on a concrete input that emits one record. -/
theorem claim_C9_witness :
    ({ name := "John Smith", seatNo := "", university := "Georgetown Center",
       programme := "", classification := "Credit" } : Student).seatNo = "" ∧
      (({ name := "John Smith", seatNo := "", university := "Georgetown Center",
          programme := "", classification := "Credit" } : Student).classification = "Credit" ∨
       ({ name := "John Smith", seatNo := "", university := "Georgetown Center",
          programme := "", classification := "Credit" } : Student).classification = "Distinction" ∨
       ({ name := "John Smith", seatNo := "", university := "Georgetown Center",
          programme := "", classification := "Credit" } : Student).classification = "Pass" ∨
       ({ name := "John Smith", seatNo := "", university := "Georgetown Center",
          programme := "", classification := "Credit" } : Student).classification = "Merit" ∨
       ({ name := "John Smith", seatNo := "", university := "Georgetown Center",
          programme := "", classification := "Credit" } : Student).classification = "") :=
  claim_C9 [[some "Georgetown"], [some "Smith", some "John", some "Credit"]]
    { name := "John Smith", seatNo := "", university := "Georgetown Center",
      programme := "", classification := "Credit" } (by decide)

/-- C10: a data row with two name-like tokens that follows a location
header but no programme header produces a record whose Programme field
is the empty string (the initial context value). -/
theorem claim_C10 :
    (processRows initState [[some "Georgetown"], [some "Smith", some "John"]]).students =
      [{ name := "John Smith", seatNo := "", university := "Georgetown Center",
         programme := "", classification := "" }] := by
  decide
